import Mathlib

/-!
Verification of the indelve application searcher.

Python strings are modelled as lists of natural-number codepoints
(`List Nat`), so that ASCII case folding is plain arithmetic.  Fallible
Python code is modelled with `Except`/`Option`.  Floating point
arithmetic (`math.log`) is modelled over the reals, with Python `int()`
truncation modelled as truncation toward zero; the concrete values
proved here are far from integer boundaries, so the real model agrees
with IEEE doubles there.
-/

namespace Indelve

/-- ASCII lower-casing of one codepoint, the model of Python `str.lower`
restricted to ASCII (the data this program handles is ASCII). -/
def lowerChar (c : Nat) : Nat := if 65 ≤ c ∧ c ≤ 90 then c + 32 else c

/-- ASCII upper-casing of one codepoint, the model of Python `str.upper`. -/
def upperChar (c : Nat) : Nat := if 97 ≤ c ∧ c ≤ 122 then c - 32 else c

/-- Model of Python `s.lower()` on a whole string. -/
def lowerL (s : List Nat) : List Nat := s.map lowerChar

/-- Turn a Lean string literal into its list of codepoints, used only to
write the concrete test data readably. -/
def codes (s : String) : List Nat := s.data.map Char.toNat

/-- A codepoint `d` with `d.lower() == d and d.upper() != d`, the test the
source applies to the character before a candidate acronym letter. -/
def isLowLetter (d : Nat) : Bool := decide (lowerChar d = d ∧ upperChar d ≠ d)

/-- Model of Python `hay.find(needle)` (first index of `needle` as a
contiguous substring, `none` for `-1`): `findSub needle hay`. -/
def findSub (needle : List Nat) : List Nat → Option Nat
  | [] => if needle.isPrefixOf ([] : List Nat) then some 0 else none
  | c :: t =>
    if needle.isPrefixOf (c :: t) then some 0
    else (findSub needle t).map (fun i => i + 1)

/-- Model of `queryLower.translate(None, " _-")`: delete space (32),
underscore (95) and hyphen (45). -/
def stripChars (l : List Nat) : List Nat :=
  l.filter (fun c => !(c == 32 || c == 95 || c == 45))

/-- The substring weights of one scored key, from
`Provider.SCORING["substring"]` in src/indelve/providers/applications.py. -/
structure SubWeights where
  found : Int
  startString : Int
  startWord : Int
deriving DecidableEq

def wSubName : SubWeights := ⟨2500, 3000, 2500⟩
def wSubComment : SubWeights := ⟨750, 0, 750⟩
def wSubGeneric : SubWeights := ⟨1800, 2600, 1800⟩

/-- The acronym weights of one scored key, from
`Provider.SCORING["acronym"]`. -/
structure AcrWeights where
  found : Int
  startString : Int
  letterWord : Int
  letterCapital : Int
  letterNon : Int
  letterWordSkip : Int
deriving DecidableEq

def acrWName : AcrWeights := ⟨3000, 800, 1200, 800, 500, 1200⟩
def acrWGeneric : AcrWeights := ⟨3000, 800, 1000, 700, 500, 1000⟩

/-- One application record, the dict built by
`Provider._getApplicationDict`. -/
structure AppRecord where
  name : List Nat
  exec : List Nat
  comment : List Nat
  genericName : List Nat
  icon : List Nat
deriving DecidableEq

/-- The occurrence loop of `Provider._acronymMaxiumScore`
(src/indelve/providers/applications.py lines 199-241), rephrased as a
left-to-right scan so that the recursion is structural.  The Python loop
repeatedly takes the first occurrence of the acronym letter in
`stringLeft` and cuts `stringLeft` past it, which visits every matching
position of the call string in order; the scan mirrors that with
`p` the absolute index in `callStr` of the scan head, `idxRel` the index
relative to the current `stringLeft` (it resets to 0 after each visited
occurrence, exactly as the cut does), and `prev` the previous character.
`first and index == 0 and stringLeft == string` is equivalent to
`first and p = 0` since `stringLeft` shrinks strictly at each occurrence;
`string[:index-len(stringLeft)-1]` is the first `p - 1` characters of the
call string.  `remain` is the recursive score of the rest of the acronym
on the rest of the string, and a candidate is kept only when that
remainder score is nonzero (the source's sentinel for a failed match). -/
def acrScan (W : AcrWeights) (callStr : List Nat) (a : Nat) (first : Bool)
    (remain : List Nat → Int) : Nat → Nat → Option Nat → List Nat → Int
  | _, _, _, [] => 0
  | p, idxRel, prev, c :: rest =>
    if lowerChar c = a then
      let letterA : Int :=
        (if first = true ∧ idxRel = 0 ∧ p = 0 then W.startString + W.letterWord else 0)
        + (if 0 < idxRel ∧ prev = some 32 then W.letterWord else 0)
        + (if 0 < idxRel ∧ upperChar c = c ∧ (prev.map isLowLetter = some true)
            then W.letterCapital else 0)
      let letterB : Int := if letterA = 0 then -W.letterNon else letterA
      let letterScore : Int :=
        letterB -
          (if first = false ∧ (callStr.take (p - 1)).contains 32 = true
            then W.letterWordSkip else 0)
      let remainScore := remain rest
      let nextScore : Int := if remainScore ≠ 0 then letterScore + remainScore else 0
      max nextScore (acrScan W callStr a first remain (p + 1) 0 (some c) rest)
    else
      acrScan W callStr a first remain (p + 1) (idxRel + 1) (some c) rest

/-- Model of `Provider._acronymMaxiumScore(string, acronym, key, first)`:
maximal score of matching `acronym` (lowercase, no space/underscore/hyphen)
inside `string`, with the weights of the scored key. -/
def acrScore (W : AcrWeights) : List Nat → List Nat → Bool → Int
  | _, [], _ => W.found
  | s, a :: as, first => acrScan W s a first (fun t => acrScore W t as false) 0 0 none s

/-- The contribution of one scored key to the substring score: the body of
the `for key in ...` loop of `Provider.search` (lines 288-300).  The search
is folded-against-folded; the start-of-word test reads the original-cased
field at `index - 1`. -/
def subKey (w : SubWeights) (field qLower : List Nat) : Int :=
  match findSub qLower (lowerL field) with
  | none => 0
  | some i =>
    w.found +
      (if i = 0 then w.startString
        else if field.getD (i - 1) 0 = 32 then w.startWord else 0)

/-- 1 when the key matched (contributes to `keysMatched`), else 0. -/
def subHit (field qLower : List Nat) : Nat :=
  match findSub qLower (lowerL field) with
  | none => 0
  | some _ => 1

/-- `SCORING["substring"]["-multiples"]`: the dict `{0:0, 1:0, 2:2000,
3:4000}`.  Only 0..3 are reachable (there are three scored keys). -/
def multPenalty : Nat → Int
  | 2 => 2000
  | 3 => 4000
  | _ => 0

/-- The substring score before the length boost: found/start bonuses over
the three scored keys minus the multiple-key penalty. -/
def subRaw (app : AppRecord) (q : List Nat) : Int :=
  let qL := lowerL q
  subKey wSubName app.name qL + subKey wSubComment app.comment qL
      + subKey wSubGeneric app.genericName qL
    - multPenalty (subHit app.name qL + subHit app.comment qL + subHit app.genericName qL)

/-- Python `int()` applied to a real: truncation toward zero. -/
noncomputable def pyTrunc (x : ℝ) : ℤ := if 0 ≤ x then ⌊x⌋ else ⌈x⌉

/-- The length boost factor `math.log(len(query)) / 5 + 1`. -/
noncomputable def boostFactor (q : List Nat) : ℝ := Real.log q.length / 5 + 1

/-- `scoreSub` of `Provider.search`: the raw substring score boosted by
the query-length factor and truncated to an integer (line 304). -/
noncomputable def scoreSub (app : AppRecord) (q : List Nat) : Int :=
  pyTrunc ((subRaw app q : ℝ) * boostFactor q)

/-- `scoreAcr` of `Provider.search` (lines 308-314): rolling maximum,
starting from 0, over the name and genericName keys of the acronym score
of the stripped lowercase query. -/
def scoreAcr (app : AppRecord) (q : List Nat) : Int :=
  let acr := stripChars (lowerL q)
  max (max 0 (acrScore acrWName app.name acr true))
    (acrScore acrWGeneric app.genericName acr true)

def relevanceMin : Int := 0
def relevanceMax : Int := 10000

/-- The clamp of `Provider.search` lines 320-323 into the relevance band. -/
def clampBand (s : Int) : Int :=
  let a := if s < relevanceMin then relevanceMin else s
  if relevanceMax < a then relevanceMax else a

/-- The final per-record score: `max(scoreSub, scoreAcr)` clamped. -/
noncomputable def scoreOf (app : AppRecord) (q : List Nat) : Int :=
  clampBand (max (scoreSub app q) (scoreAcr app q))

/-- A Python value stored in an item dict: an int or a string. -/
inductive Val where
  | int : Int → Val
  | str : List Nat → Val
deriving DecidableEq

/-- A Python dict as an association list (insertion ordered). -/
abbrev Dict := List (String × Val)

/-- The Python errors this development distinguishes. -/
inductive PyErr where
  | valueError
  | typeError
  | assertionError
  | attributeError
  | keyError
deriving DecidableEq

/-- Dict key lookup, first binding wins. -/
def lookupD : Dict → String → Option Val
  | [], _ => none
  | (k, v) :: t, key => if k = key then some v else lookupD t key

/-- The item dict appended by `Provider.search` lines 327-333. -/
def itemDictOf (s : Int) (app : AppRecord) : Dict :=
  [("relevance", Val.int s), ("name", Val.str app.name), ("exec", Val.str app.exec),
    ("description", Val.str app.comment), ("icon", Val.str app.icon)]

/-- Model of `Provider.search` of the applications provider
(src/indelve/providers/applications.py lines 264-335): an empty query
raises `ValueError` (the inapplicable-query signal); otherwise every
database record with positive clamped score yields an item dict, in
database order. -/
noncomputable def providerSearch (db : List AppRecord) (q : List Nat) :
    Except PyErr (List Dict) :=
  if q = [] then .error .valueError
  else .ok (db.filterMap fun app =>
    let s := scoreOf app q
    if 0 < s then some (itemDictOf s app) else none)

/-- A provider search function as the aggregator sees it. -/
abbrev ProvFun := List Nat → Except PyErr (List Dict)

/-- Modelled from the spec: `utilities.isItemDict` is imported by
src/indelve/main.py but utilities.py is not part of the sources; section
4.8 of the spec describes it as the structural validator checking that all
required fields are present with the expected types and that `relevance`
is an integer in the band. -/
def isItemDict (d : Dict) : Bool :=
  (match lookupD d "relevance" with
    | some (Val.int i) => decide (0 ≤ i ∧ i ≤ 10000)
    | _ => false)
  && (match lookupD d "name" with | some (Val.str _) => true | _ => false)
  && (match lookupD d "exec" with | some (Val.str _) => true | _ => false)
  && (match lookupD d "description" with | some (Val.str _) => true | _ => false)
  && (match lookupD d "icon" with | some (Val.str _) => true | _ => false)

/-- Lexicographic order on codepoint strings (Python 2 string comparison). -/
def lexLe : List Nat → List Nat → Bool
  | [], _ => true
  | _ :: _, [] => false
  | a :: as, b :: bs => if a < b then true else if b < a then false else lexLe as bs

/-- Python 2 ordering on the values a relevance key can hold (numbers
precede strings). -/
def valLe : Val → Val → Bool
  | Val.int a, Val.int b => decide (a ≤ b)
  | Val.int _, Val.str _ => true
  | Val.str _, Val.int _ => false
  | Val.str a, Val.str b => lexLe a b

/-- The sort key `lambda a: a["relevance"]`, applied after the presence of
the key has been checked. -/
def relKeyOf (d : Dict) : Val := (lookupD d "relevance").getD (Val.int 0)

/-- Stable ascending insertion: `x` goes after every element whose key is
less than or equal to its own. -/
def insAsc : List Dict → Dict → List Dict
  | [], x => [x]
  | y :: ys, x =>
    if valLe (relKeyOf y) (relKeyOf x) = true then y :: insAsc ys x else x :: y :: ys

/-- Model of `items.sort(key=lambda a: a["relevance"])`: a stable
ascending sort. -/
def pySortAsc (l : List Dict) : List Dict := l.foldl insAsc []

/-- The sort step of `Indelve.search` line 136: CPython precomputes the
key of every element, so a dict without a `relevance` key raises
`KeyError`; otherwise the list is stably sorted ascending. -/
def sortItems (items : List Dict) : Except PyErr (List Dict) :=
  if items.all (fun d => (lookupD d "relevance").isSome) then .ok (pySortAsc items)
  else .error .keyError

/-- The provider loop of `Indelve.search` (src/indelve/main.py lines
122-133).  Per provider: call its search; a `ValueError` is caught and the
provider skipped; any other error propagates.  On success the code runs
`for item in items: assert isItemDict(item)` over the ACCUMULATOR `items`
(not over the fresh `results`) and then extends the accumulator. -/
def searchLoop : List (String × ProvFun) → List Dict → List Nat →
    Except PyErr (List Dict)
  | [], items, _ => .ok items
  | (_, f) :: rest, items, q =>
    match f q with
    | .error e => if e = .valueError then searchLoop rest items q else .error e
    | .ok results =>
      if items.all isItemDict then searchLoop rest (items ++ results) q
      else .error .assertionError

/-- Model of `Indelve.search` (src/indelve/main.py lines 107-139): empty
query raises `ValueError` to the caller; then the provider loop; then the
ascending sort by relevance.  The provider map is modelled as an
insertion-ordered list. -/
def indelveSearch (provs : List (String × ProvFun)) (q : List Nat) :
    Except PyErr (List Dict) :=
  if q = [] then .error .valueError
  else
    match searchLoop provs [] q with
    | .error e => .error e
    | .ok items => sortItems items

/-- Model of `Indelve.__init__` (src/indelve/main.py lines 37-59) on an
explicit provider-name list.  `imp name` is `none` when
`import_module` raises `ImportError`, and otherwise the outcome of
`providerModule.Provider()`.  On `ImportError` the handler executes
`warn(provider, bad.providerLoadWarning)`, but bad.py defines
`ProviderLoadWarning` (capital P) and no `providerLoadWarning`, so the
attribute access itself raises `AttributeError`, which propagates.  A
failing constructor propagates its error (the source comments that such
an exception is deliberately let through).  No emptiness check is
performed, so `NoProvidersError` is never raised. -/
def indelveInit (imp : String → Option (Except PyErr ProvFun)) :
    List String → Except PyErr (List (String × ProvFun))
  | [] => .ok []
  | n :: rest =>
    match imp n with
    | none => .error .attributeError
    | some (.error e) => .error e
    | some (.ok p) =>
      match indelveInit imp rest with
      | .error e => .error e
      | .ok l => .ok ((n, p) :: l)

/-- A parsed desktop entry as the xdg library presents it to
`Provider._getApplicationDict`: the keys the code reads.  `tryExec = none`
models `getTryExec` raising `NoKeyError` (the key is absent). -/
structure DeskEntry where
  entryType : List Nat
  hidden : Bool
  categories : List (List Nat)
  tryExec : Option (List Nat)
  exec : List Nat
  name : List Nat
  comment : List Nat
  genericName : List Nat
  icon : List Nat
deriving DecidableEq

/-- What the filesystem says about one path: whether it is a regular
file, the parse outcome (`none` when `DesktopEntry` raises one of the
errors `_addApplication` catches), and the modification time. -/
structure FileInfo where
  isFile : Bool
  parse : Option DeskEntry
  mtime : Int

/-- A filesystem snapshot: the paths `_getXdgApplicationFiles` returns, the
per-path data, and the `which` lookup.  `whichOk t = true` models
`which(t) != None`; `which` lives in the absent utilities.py and is
modelled from the spec (section 4.8: resolve against PATH, first
executable match or a not-found sentinel). -/
structure FS where
  paths : List (List Nat)
  info : List Nat → FileInfo
  whichOk : List Nat → Bool

/-- Index of the last occurrence of `c` in `l`. -/
def lastIdxOf (c : Nat) (l : List Nat) : Option Nat :=
  (l.foldl (fun (acc : Nat × Option Nat) d =>
    (acc.1 + 1, if d = c then some acc.1 else acc.2)) (0, none)).2

/-- Model of `os.path.splitext(p)[1]` (posixpath): the suffix from the
last dot, provided that dot comes after the last slash and the basename
does not consist solely of dots up to it. -/
def splitextExt (p : List Nat) : List Nat :=
  match lastIdxOf 46 p with
  | none => []
  | some di =>
    let start := match lastIdxOf 47 p with | none => 0 | some s => s + 1
    if start ≤ di ∧ ((p.drop start).take (di - start)).any (fun c => !(c == 46)) = true
      then p.drop di else []

def strDotDesktop : List Nat := codes ".desktop"
def strApplication : List Nat := codes "Application"
def strScreensaver : List Nat := codes "Screensaver"

/-- Model of `Provider._getApplicationDict`
(src/indelve/providers/applications.py lines 135-177): `none` models any
of the exceptions `_addApplication` catches; the checks run in source
order (regular file, `.desktop` extension, parse, Type, Hidden, TryExec,
Screensaver, Exec). -/
def getApplicationDict (fs : FS) (p : List Nat) : Option AppRecord :=
  let fi := fs.info p
  if fi.isFile = false then none
  else if lowerL (splitextExt p) ≠ strDotDesktop then none
  else
    match fi.parse with
    | none => none
    | some e =>
      if e.entryType ≠ strApplication then none
      else if e.hidden = true then none
      else if (match e.tryExec with
                | some t => !(fs.whichOk t)
                | none => false) = true then none
      else if e.categories.contains strScreensaver = true then none
      else if e.exec = [] then none
      else some ⟨e.name, e.exec, e.comment, e.genericName, e.icon⟩

/-- `Provider._loadApplications`: the database a full load builds. -/
def loadAll (fs : FS) : List AppRecord := fs.paths.filterMap (getApplicationDict fs)

/-- The mutable state of the applications provider. -/
structure PState where
  database : List AppRecord
  lastRefreshTime : Int

/-- `Provider.__init__`: empty database, then a full load stamped `now`. -/
def initState (fs : FS) (now : Int) : PState := ⟨loadAll fs, now⟩

/-- Model of `Provider.refresh` (src/indelve/providers/applications.py
lines 247-261).  With `force=True` the database is discarded and fully
reloaded.  With `force=False` the loop body evaluates
`os.path.getmtime()` with no argument, so the first iteration raises
`TypeError` before anything is compared or added; with no discovered
paths the loop body never runs. -/
def refreshP (s : PState) (fs : FS) (now : Int) (force : Bool) :
    Except PyErr PState :=
  if force then .ok ⟨loadAll fs, now⟩
  else
    match fs.paths with
    | [] => .ok s
    | _ :: _ => .error .typeError

/-- The provider states reachable from construction by any sequence of
refresh calls against arbitrary filesystem snapshots (an erroring refresh
mutates nothing, so it leaves the state at an already-reachable one). -/
inductive Reachable : PState → Prop where
  | init : ∀ fs now, Reachable (initState fs now)
  | step : ∀ s fs now force t, Reachable s → refreshP s fs now force = .ok t →
      Reachable t

/-- The per-letter bonus of the spec's canonical acronym recursion
(spec section 4.5.2), at absolute position `p` of the call string `s`:
start-string when the first query letter lands at index 0 of the source;
letter-word at index 0 of the source or after a space; letter-capital for
an uppercase letter preceded by a lowercase letter; `-letter_non` when no
bonus applies; and the word-skip penalty when, not in the first step,
a space occurs among the characters consumed before the landing site. -/
def specBonusAt (W : AcrWeights) (s : List Nat) (p : Nat) (first : Bool) : Int :=
  let c := s.getD p 0
  let pos : Int :=
    (if first = true ∧ p = 0 then W.startString else 0)
    + (if (first = true ∧ p = 0) ∨ (0 < p ∧ s.getD (p - 1) 0 = 32)
        then W.letterWord else 0)
    + (if 0 < p ∧ upperChar c = c ∧ isLowLetter (s.getD (p - 1) 0) = true
        then W.letterCapital else 0)
  let base : Int := if pos = 0 then -W.letterNon else pos
  base - (if first = false ∧ (s.take (p - 1)).contains 32 = true
          then W.letterWordSkip else 0)

/-- All completed-alignment totals obtainable by landing the current
query letter `a` at each matching position of the scanned remainder of
`s`; `rem` scores the rest of the query on the rest of the string, and a
position contributes only when the rest matches completely. -/
def specScan (W : AcrWeights) (s : List Nat) (a : Nat) (first : Bool)
    (rem : List Nat → Option Int) : Nat → List Nat → List Int
  | _, [] => []
  | p, c :: rest =>
    let tailCands := specScan W s a first rem (p + 1) rest
    if lowerChar c = a then
      match rem rest with
      | some r => (specBonusAt W s p first + r) :: tailCands
      | none => tailCands
    else tailCands

/-- Maximum of a list of candidate totals, `none` when there are none. -/
def maxCand : List Int → Option Int
  | [] => none
  | x :: xs => some (xs.foldl max x)

/-- The spec's canonical acronym maximum (spec section 4.5.2, written from
the spec's words, for comparison with the source's `_acronymMaxiumScore`):
the maximum total over all alignments that exhaust the query, each letter
scored by `specBonusAt` plus one final `+found`; `none` when no complete
alignment exists, so that partial chains contribute nothing. -/
def specBest (W : AcrWeights) (s : List Nat) : List Nat → Bool → Option Int
  | [], _ => some W.found
  | a :: as, first =>
    maxCand (specScan W s a first (fun t => specBest W t as false) 0 s)

/-- A dict's relevance as an integer, defaulting to 0 (used only to state
ordering facts about outputs whose dicts are well formed). -/
def relInt (d : Dict) : Int :=
  match lookupD d "relevance" with
  | some (Val.int i) => i
  | _ => 0

/-- Whether a result list is sorted descending by relevance. -/
def descOk : List Dict → Bool
  | [] => true
  | [_] => true
  | a :: b :: t => decide (relInt b ≤ relInt a) && descOk (b :: t)

/-! The four synthetic records of the end-to-end scenarios (spec section 8),
all with non-empty exec and empty icon. -/

def gimpRec : AppRecord :=
  ⟨codes "GNU Image Manipulation Program", codes "gimp",
    codes "Create images and edit photographs", codes "Image Editor", []⟩

def loRec : AppRecord :=
  ⟨codes "LibreOffice Writer", codes "lowriter",
    codes "Create and edit text and graphics", codes "Word Processor", []⟩

def ffRec : AppRecord :=
  ⟨codes "Firefox", codes "firefox",
    codes "Browse the World Wide Web", codes "Web Browser", []⟩

def termRec : AppRecord :=
  ⟨codes "Terminal", codes "terminal", codes "Use the command line", [], []⟩

def fourRecords : List AppRecord := [gimpRec, loRec, ffRec, termRec]

def fireQ : List Nat := codes "fire"

/-- The item the scenario expects for Firefox. -/
def fireItem : Dict := itemDictOf 7024 ffRec

/-! Concrete inputs used by the countermodels. -/

def qA : List Nat := codes "a"

def dHigh : Dict :=
  [("relevance", Val.int 7000), ("name", Val.str (codes "high")),
    ("exec", Val.str (codes "h")), ("description", Val.str []), ("icon", Val.str [])]

def dLow : Dict :=
  [("relevance", Val.int 100), ("name", Val.str (codes "low")),
    ("exec", Val.str (codes "l")), ("description", Val.str []), ("icon", Val.str [])]

/-- A record with an out-of-band relevance: it fails `isItemDict`. -/
def badItem : Dict :=
  [("relevance", Val.int 20000), ("name", Val.str (codes "bad")),
    ("exec", Val.str (codes "b")), ("description", Val.str []), ("icon", Val.str [])]

def provC1 : List (String × ProvFun) := [("p", fun _ => .ok [dHigh, dLow])]

def provC3 : List (String × ProvFun) := [("p", fun _ => .ok [badItem])]

/-- An import map with no importable provider modules. -/
def impNone : String → Option (Except PyErr ProvFun) := fun _ => none

/-- An import map whose provider constructors all raise. -/
def impCtorFail : String → Option (Except PyErr ProvFun) :=
  fun _ => some (.error .typeError)

/-- The C4 counterexample source string and stripped query. -/
def acrC4Str : List Nat := codes "qabcdefgh"
def acrC4Q : List Nat := codes "qbcdefgh"

/-- A one-path filesystem snapshot (the file itself is irrelevant: the
non-forced refresh crashes before reading it). -/
def fsOne : FS := ⟨[codes "a.desktop"], fun _ => ⟨false, none, 0⟩, fun _ => false⟩

def ps0 : PState := ⟨[], 0⟩

/-- C1: the aggregator sorts ascending by relevance, not descending.  On
a provider returning well-formed records of relevance 7000 and 100 and the
query "a", `Indelve.search` returns the relevance-100 record first, so its
output is not sorted descending. -/
theorem indelveSearch_sorts_ascending :
    indelveSearch provC1 qA = .ok [dLow, dHigh] ∧ descOk [dLow, dHigh] = false :=
  ⟨rfl, rfl⟩

/-- C2: aggregator construction never raises `NoProvidersError`.  With an
empty provider list it succeeds with zero active providers; with an
unknown name it raises `AttributeError` (the handler references the
misspelled `bad.providerLoadWarning`) instead of warning and skipping; and
a provider whose constructor raises propagates that error instead of
being warned about and skipped. -/
theorem indelveInit_no_noProvidersError :
    indelveInit impNone [] = .ok [] ∧
    indelveInit impNone ["bogus"] = .error .attributeError ∧
    indelveInit impCtorFail ["applications"] = .error .typeError :=
  ⟨rfl, rfl, rfl⟩

/-- C3: the validation loop of `Indelve.search` iterates the accumulator,
which is empty while the first provider's results are handled, so a
malformed record from a single provider reaches the output with no
`AssertionError`. -/
theorem indelveSearch_returns_unvalidated :
    indelveSearch provC3 qA = .ok [badItem] ∧ isItemDict badItem = false :=
  ⟨rfl, rfl⟩

/-- C4: the acronym sub-score is not the maximum over all complete
alignments.  On source "qabcdefgh" and stripped query "qbcdefgh" the
unique complete alignment totals 1500 (the spec-side maximum), but the
source's `remainScore != 0` sentinel discards the suffix chain whose
genuine score is exactly 0, so `_acronymMaxiumScore` returns 0. -/
theorem acrScore_not_alignment_maximum :
    acrScore acrWName acrC4Str acrC4Q true = 0 ∧
    specBest acrWName acrC4Str acrC4Q true = some 1500 :=
  ⟨rfl, rfl⟩

/-- C6: `refresh(force=False)` raises `TypeError` whenever file discovery
yields at least one path, because `os.path.getmtime()` is called without
its path argument; no modification time is ever compared and the failure
is user-visible. -/
theorem refresh_nonforce_typeError (s : PState) (fs : FS) (now : Int)
    (h : fs.paths ≠ []) : refreshP s fs now false = .error .typeError := by
  cases hp : fs.paths with
  | nil => exact absurd hp h
  | cons a t => simp [refreshP, hp]

/-- Witness for C6 at a concrete one-path snapshot. -/
theorem refresh_nonforce_typeError_witness :
    fsOne.paths ≠ [] ∧ refreshP ps0 fsOne 0 false = .error .typeError :=
  ⟨by decide, refresh_nonforce_typeError ps0 fsOne 0 (by decide)⟩

/-- A provider whose search always signals an inapplicable query. -/
def fInapp : ProvFun := fun _ => .error .valueError

/-- A provider whose search raises an unexpected error. -/
def fBoom : ProvFun := fun _ => .error .typeError

/-- C8: the error discipline of search.  An empty query makes the
aggregator's search raise `ValueError` to its caller; an empty query makes
the provider's search raise `ValueError` (the inapplicable-query signal);
the aggregator's provider loop silently skips a provider that raises that
signal, whatever has been accumulated; and any other error from a
provider's search propagates out of the loop unchanged. -/
theorem search_error_discipline :
    (∀ provs : List (String × ProvFun), indelveSearch provs [] = .error .valueError) ∧
    (∀ db : List AppRecord, providerSearch db [] = .error .valueError) ∧
    (∀ (n : String) (rest : List (String × ProvFun)) (items : List Dict)
      (q : List Nat) (f : ProvFun), f q = .error .valueError →
      searchLoop ((n, f) :: rest) items q = searchLoop rest items q) ∧
    (∀ (n : String) (rest : List (String × ProvFun)) (items : List Dict)
      (q : List Nat) (f : ProvFun) (e : PyErr), f q = .error e →
      e ≠ .valueError → searchLoop ((n, f) :: rest) items q = .error e) := by
  refine ⟨fun provs => rfl, fun db => rfl, ?_, ?_⟩
  · intro n rest items q f h
    simp [searchLoop, h]
  · intro n rest items q f e h he
    simp [searchLoop, h, he]

/-- Witness for C8 at concrete providers and the query "a". -/
theorem search_error_discipline_witness :
    fInapp qA = .error .valueError ∧
    (fBoom qA = .error .typeError ∧ PyErr.typeError ≠ PyErr.valueError) ∧
    searchLoop [("p", fInapp)] [] qA = searchLoop [] [] qA ∧
    searchLoop [("p", fBoom)] [] qA = .error .typeError :=
  ⟨rfl, ⟨rfl, by decide⟩,
    search_error_discipline.2.2.1 "p" [] [] qA fInapp rfl,
    search_error_discipline.2.2.2 "p" [] [] qA fBoom .typeError rfl (by decide)⟩

/-- ASCII lower-casing sends nothing but the space to the space. -/
theorem lowerChar_eq_space {c : Nat} : lowerChar c = 32 ↔ c = 32 := by
  unfold lowerChar
  split_ifs with h <;> omega

theorem length_eq_of_lowerL {s t : List Nat} (h : lowerL s = lowerL t) :
    s.length = t.length := by
  have h2 := congrArg List.length h
  simpa [lowerL] using h2

/-- Two strings with the same ASCII case folding have spaces at the same
positions. -/
theorem getD_space_iff {s t : List Nat} (h : lowerL s = lowerL t) (i : Nat) :
    (s.getD i 0 = 32) ↔ (t.getD i 0 = 32) := by
  have h2 : (lowerL s)[i]? = (lowerL t)[i]? := by rw [h]
  rw [lowerL, lowerL, List.getElem?_map, List.getElem?_map] at h2
  rw [List.getD_eq_getElem?_getD, List.getD_eq_getElem?_getD]
  rcases hs : s[i]? with _ | c <;> rcases ht : t[i]? with _ | d <;>
      rw [hs, ht] at h2 <;> simp_all
  constructor
  · intro hc
    have : lowerChar d = 32 := by rw [← h2, hc]; simp [lowerChar]
    exact lowerChar_eq_space.mp this
  · intro hd
    have : lowerChar c = 32 := by rw [h2, hd]; simp [lowerChar]
    exact lowerChar_eq_space.mp this

theorem subKey_congr {w : SubWeights} {f g qL : List Nat}
    (h : lowerL f = lowerL g) : subKey w f qL = subKey w g qL := by
  unfold subKey
  rw [h]
  rcases hi : findSub qL (lowerL g) with _ | i
  · rfl
  · have hiff := getD_space_iff h (i - 1)
    by_cases h0 : i = 0
    · simp [h0]
    · dsimp only
      rw [if_neg h0, if_neg h0]
      simp only [hiff]

theorem subHit_congr {f g qL : List Nat} (h : lowerL f = lowerL g) :
    subHit f qL = subHit g qL := by
  unfold subHit
  rw [h]

/-- C9: the substring sub-score is invariant under ASCII case changes of
the query and of the record's name, comment and generic-name fields: both
sides of the occurrence search are case-folded, the start-of-word test
only asks whether a character is a space (which case folding preserves),
and the length boost depends only on the query's length. -/
theorem scoreSub_case_invariant (a b : AppRecord) (q r : List Nat)
    (hq : lowerL q = lowerL r) (hn : lowerL a.name = lowerL b.name)
    (hc : lowerL a.comment = lowerL b.comment)
    (hg : lowerL a.genericName = lowerL b.genericName) :
    scoreSub a q = scoreSub b r := by
  have hraw : subRaw a q = subRaw b r := by
    simp only [subRaw]
    rw [hq, subKey_congr hn, subKey_congr hc, subKey_congr hg,
      subHit_congr hn, subHit_congr hc, subHit_congr hg]
  have hlen : q.length = r.length := length_eq_of_lowerL hq
  unfold scoreSub boostFactor
  rw [hraw, hlen]

/-- Witness for C9: recasing the query and the name leaves the substring
sub-score unchanged. -/
theorem scoreSub_case_invariant_witness :
    lowerL (codes "FiRe") = lowerL (codes "fire") ∧
    scoreSub ⟨codes "FIREFOX", codes "firefox", [], [], []⟩ (codes "FiRe") =
      scoreSub ⟨codes "Firefox", codes "firefox", [], [], []⟩ (codes "fire") :=
  ⟨by decide,
    scoreSub_case_invariant _ _ _ _ (by decide) (by decide) (by decide) (by decide)⟩

/-- A key either misses (no hit, zero contribution) or hits (one hit, at
least its `+found` weight, since the start bonuses are nonnegative). -/
theorem subKey_hit_bound (w : SubWeights) (hw1 : 0 ≤ w.startString)
    (hw2 : 0 ≤ w.startWord) (f qL : List Nat) :
    (subHit f qL = 0 ∧ subKey w f qL = 0) ∨
    (subHit f qL = 1 ∧ w.found ≤ subKey w f qL) := by
  rcases h : findSub qL (lowerL f) with _ | i
  · left
    constructor <;> simp [subHit, subKey, h]
  · right
    constructor
    · simp [subHit, h]
    · simp only [subKey, h]
      split_ifs <;> omega

/-- The raw substring score is never negative: the multiple-key penalty
(2000 for two keys, 4000 for three) is always covered by the `+found`
weights of the matching keys (750 + 1800 = 2550, 2500 + 750 + 1800 = 5050). -/
theorem subRaw_nonneg (app : AppRecord) (q : List Nat) : 0 ≤ subRaw app q := by
  have B1 := subKey_hit_bound wSubName (by decide) (by decide) app.name (lowerL q)
  have B2 := subKey_hit_bound wSubComment (by decide) (by decide) app.comment (lowerL q)
  have B3 := subKey_hit_bound wSubGeneric (by decide) (by decide) app.genericName (lowerL q)
  have c1 : wSubName.found = 2500 := rfl
  have c2 : wSubComment.found = 750 := rfl
  have c3 : wSubGeneric.found = 1800 := rfl
  rw [c1] at B1; rw [c2] at B2; rw [c3] at B3
  simp only [subRaw]
  rcases B1 with ⟨e1, k1⟩ | ⟨e1, k1⟩ <;> rcases B2 with ⟨e2, k2⟩ | ⟨e2, k2⟩ <;>
      rcases B3 with ⟨e3, k3⟩ | ⟨e3, k3⟩ <;>
      rw [e1, e2, e3] <;>
      simp only [show multPenalty (0 + 0 + 0) = 0 from rfl,
        show multPenalty (0 + 0 + 1) = 0 from rfl,
        show multPenalty (0 + 1 + 0) = 0 from rfl,
        show multPenalty (1 + 0 + 0) = 0 from rfl,
        show multPenalty (0 + 1 + 1) = 2000 from rfl,
        show multPenalty (1 + 0 + 1) = 2000 from rfl,
        show multPenalty (1 + 1 + 0) = 2000 from rfl,
        show multPenalty (1 + 1 + 1) = 4000 from rfl] <;>
      omega

theorem boostFactor_nonneg (q : List Nat) (h : q ≠ []) : 0 ≤ boostFactor q := by
  have h1 : 1 ≤ q.length := List.length_pos.mpr h
  have h2 : (1 : ℝ) ≤ (q.length : ℝ) := by exact_mod_cast h1
  have h3 : 0 ≤ Real.log q.length := Real.log_nonneg h2
  unfold boostFactor
  linarith

theorem scoreSub_nonneg (app : AppRecord) (q : List Nat) (h : q ≠ []) :
    0 ≤ scoreSub app q := by
  have hr := subRaw_nonneg app q
  have hb := boostFactor_nonneg q h
  have hx : (0 : ℝ) ≤ (subRaw app q : ℝ) * boostFactor q :=
    mul_nonneg (by exact_mod_cast hr) hb
  unfold scoreSub pyTrunc
  rw [if_pos hx]
  exact Int.floor_nonneg.mpr hx

theorem scoreAcr_nonneg (app : AppRecord) (q : List Nat) : 0 ≤ scoreAcr app q := by
  unfold scoreAcr
  exact le_trans (le_max_left 0 _) (le_max_left _ _)

/-- C10: every item the applications provider returns has relevance at
least 1 (candidates scoring 0 are filtered out), and both the boosted
substring sub-score and the acronym sub-score are always nonnegative, so
the clamp at the band minimum 0 never alters a score. -/
theorem providerSearch_positive_relevance (db : List AppRecord) (q : List Nat)
    (hq : q ≠ []) :
    (∃ items, providerSearch db q = .ok items ∧
      ∀ d ∈ items, ∃ r : Int, lookupD d "relevance" = some (Val.int r) ∧ 1 ≤ r) ∧
    (∀ app : AppRecord, 0 ≤ scoreSub app q ∧ 0 ≤ scoreAcr app q) := by
  constructor
  · refine ⟨_, by rw [providerSearch, if_neg hq], ?_⟩
    intro d hd
    rw [List.mem_filterMap] at hd
    obtain ⟨app, _, happ⟩ := hd
    by_cases hs : 0 < scoreOf app q
    · simp only [hs, if_pos] at happ
      refine ⟨scoreOf app q, ?_, hs⟩
      rw [← Option.some_inj.mp happ]
      rfl
    · simp only [hs, if_neg, if_false] at happ
      simp at happ
  · intro app
    exact ⟨scoreSub_nonneg app q hq, scoreAcr_nonneg app q⟩

/-- Witness for C10 at the four-record index and the query "a". -/
theorem providerSearch_positive_relevance_witness :
    qA ≠ [] ∧
    ((∃ items, providerSearch fourRecords qA = .ok items ∧
      ∀ d ∈ items, ∃ r : Int, lookupD d "relevance" = some (Val.int r) ∧ 1 ≤ r) ∧
    (∀ app : AppRecord, 0 ≤ scoreSub app qA ∧ 0 ≤ scoreAcr app qA)) :=
  ⟨by decide, providerSearch_positive_relevance fourRecords qA (by decide)⟩

/-- Unpacking `getApplicationDict`: a record is produced exactly when the
path was a regular file with `.desktop` extension whose entry parsed,
had `Type=Application`, was not hidden, had a resolving (or absent)
`TryExec`, was not a screensaver, and had a non-empty `Exec`; the record
copies the entry's fields. -/
theorem getApplicationDict_checks {fs : FS} {p : List Nat} {r : AppRecord}
    (h : getApplicationDict fs p = some r) :
    ∃ e : DeskEntry, (fs.info p).isFile = true ∧
      lowerL (splitextExt p) = strDotDesktop ∧
      (fs.info p).parse = some e ∧ e.entryType = strApplication ∧
      e.hidden = false ∧ (∀ t, e.tryExec = some t → fs.whichOk t = true) ∧
      e.categories.contains strScreensaver = false ∧ e.exec ≠ [] ∧
      r = ⟨e.name, e.exec, e.comment, e.genericName, e.icon⟩ := by
  unfold getApplicationDict at h
  dsimp only at h
  by_cases h1 : (fs.info p).isFile = false
  · rw [if_pos h1] at h
    exact absurd h (by simp)
  rw [if_neg h1] at h
  by_cases h2 : lowerL (splitextExt p) ≠ strDotDesktop
  · rw [if_pos h2] at h
    exact absurd h (by simp)
  rw [if_neg h2] at h
  rcases hp : (fs.info p).parse with _ | e
  · rw [hp] at h
    simp at h
  rw [hp] at h
  dsimp only at h
  split_ifs at h with h3 h4 h5 h6 h7
  refine ⟨e, ?_, not_not.mp h2, rfl, not_not.mp h3, ?_, ?_, ?_, h7, ?_⟩
  · revert h1
    cases (fs.info p).isFile <;> simp
  · revert h4
    cases e.hidden <;> simp
  · intro t ht
    rw [ht] at h5
    dsimp only at h5
    simpa using h5
  · revert h6
    cases e.categories.contains strScreensaver <;> simp
  · exact (Option.some_inj.mp h).symm

/-- C7: at every reachable provider state, every record in the index was
built from a filesystem whose snapshot showed, for its path, a regular
file with `.desktop` extension that parsed, had `Type=Application`, was
not hidden, was not categorized `Screensaver`, either lacked `TryExec` or
had it resolve on `PATH`, and had a non-empty `Exec`. -/
theorem index_records_validated (s : PState) (hs : Reachable s) :
    ∀ r ∈ s.database, ∃ (fs : FS) (p : List Nat) (e : DeskEntry),
      (fs.info p).isFile = true ∧ lowerL (splitextExt p) = strDotDesktop ∧
      (fs.info p).parse = some e ∧ e.entryType = strApplication ∧
      e.hidden = false ∧ (∀ t, e.tryExec = some t → fs.whichOk t = true) ∧
      e.categories.contains strScreensaver = false ∧ e.exec ≠ [] ∧
      r = ⟨e.name, e.exec, e.comment, e.genericName, e.icon⟩ := by
  induction hs with
  | init fs now =>
    intro r hr
    dsimp only [initState] at hr
    obtain ⟨p, _, hp⟩ := List.mem_filterMap.mp hr
    obtain ⟨e, hconds⟩ := getApplicationDict_checks hp
    exact ⟨fs, p, e, hconds⟩
  | step s fs now force t _ hok ih =>
    cases force with
    | true =>
      intro r hr
      simp only [refreshP, if_true] at hok
      injection hok with hok
      rw [← hok] at hr
      dsimp only at hr
      obtain ⟨p, _, hp⟩ := List.mem_filterMap.mp hr
      obtain ⟨e, hconds⟩ := getApplicationDict_checks hp
      exact ⟨fs, p, e, hconds⟩
    | false =>
      rcases hpaths : fs.paths with _ | ⟨a, l⟩
      · simp only [refreshP, if_false, hpaths, Bool.false_eq_true] at hok
        injection hok with hok
        rw [← hok]
        exact ih
      · simp only [refreshP, if_false, hpaths, Bool.false_eq_true] at hok
        exact absurd hok (by simp)

/-- A one-entry filesystem whose single file passes every check. -/
def entryGood : DeskEntry :=
  ⟨codes "Application", false, [], none, codes "run", codes "App", [], [], []⟩

def fsGood : FS := ⟨[codes "app.desktop"], fun _ => ⟨true, some entryGood, 0⟩, fun _ => true⟩

/-- Witness for C7 at the freshly constructed provider over `fsGood`. -/
theorem index_records_validated_witness :
    Reachable (initState fsGood 0) ∧
    ∀ r ∈ (initState fsGood 0).database, ∃ (fs : FS) (p : List Nat) (e : DeskEntry),
      (fs.info p).isFile = true ∧ lowerL (splitextExt p) = strDotDesktop ∧
      (fs.info p).parse = some e ∧ e.entryType = strApplication ∧
      e.hidden = false ∧ (∀ t, e.tryExec = some t → fs.whichOk t = true) ∧
      e.categories.contains strScreensaver = false ∧ e.exec ≠ [] ∧
      r = ⟨e.name, e.exec, e.comment, e.genericName, e.icon⟩ :=
  ⟨Reachable.init fsGood 0, index_records_validated _ (Reachable.init fsGood 0)⟩

/-- A zero raw substring score stays zero through the length boost. -/
theorem scoreSub_of_raw_zero {app : AppRecord} {q : List Nat}
    (h : subRaw app q = 0) : scoreSub app q = 0 := by
  unfold scoreSub
  rw [h]
  norm_num [pyTrunc]

/-- The Firefox substring score for "fire": raw score 5500, boosted by
`log 4 / 5 + 1` and truncated, is exactly 7024. -/
theorem scoreSub_ff : scoreSub ffRec fireQ = 7024 := by
  have hraw : subRaw ffRec fireQ = 5500 := by decide
  have hlen : fireQ.length = 4 := by decide
  have h2 : Real.log 4 = 2 * Real.log 2 := by
    rw [show (4 : ℝ) = 2 ^ 2 by norm_num, Real.log_pow]
    push_cast
    ring
  have hgt := Real.log_two_gt_d9
  have hlt := Real.log_two_lt_d9
  have hlo : (7024 : ℝ) ≤ 5500 * (Real.log 4 / 5 + 1) := by rw [h2]; nlinarith
  have hhi : (5500 : ℝ) * (Real.log 4 / 5 + 1) < 7025 := by rw [h2]; nlinarith
  unfold scoreSub boostFactor
  rw [hraw, hlen]
  have hcast : ((5500 : ℤ) : ℝ) * (Real.log (4 : ℕ) / 5 + 1) =
      5500 * (Real.log 4 / 5 + 1) := by push_cast; ring
  rw [pyTrunc, hcast, if_pos (by linarith)]
  rw [Int.floor_eq_iff]
  constructor
  · exact_mod_cast hlo
  · push_cast
    linarith

theorem scoreOf_gimp_fire : scoreOf gimpRec fireQ = 0 := by
  unfold scoreOf
  rw [scoreSub_of_raw_zero (show subRaw gimpRec fireQ = 0 by decide)]
  decide

theorem scoreOf_lo_fire : scoreOf loRec fireQ = 0 := by
  unfold scoreOf
  rw [scoreSub_of_raw_zero (show subRaw loRec fireQ = 0 by decide)]
  decide

theorem scoreOf_term_fire : scoreOf termRec fireQ = 0 := by
  unfold scoreOf
  rw [scoreSub_of_raw_zero (show subRaw termRec fireQ = 0 by decide)]
  decide

theorem scoreOf_ff_fire : scoreOf ffRec fireQ = 7024 := by
  unfold scoreOf
  rw [scoreSub_ff]
  decide

/-- C5: on the four synthetic records, searching "fire" returns exactly
the Firefox item with relevance 7024, first (and only) in the aggregated
output; the score decomposes as `+found(name)=2500` plus
`+start_string(name)=3000` (a raw 5500 on the name key alone, so no
multiples penalty), boosted by `log 4 / 5 + 1` and truncated to 7024,
while the acronym sub-score is the lower 3500. -/
theorem scenario_fire :
    providerSearch fourRecords fireQ = .ok [fireItem] ∧
    indelveSearch [("applications", providerSearch fourRecords)] fireQ =
      .ok [fireItem] ∧
    subKey wSubName ffRec.name (lowerL fireQ) = 2500 + 3000 ∧
    subHit ffRec.name (lowerL fireQ) + subHit ffRec.comment (lowerL fireQ)
      + subHit ffRec.genericName (lowerL fireQ) = 1 ∧
    subRaw ffRec fireQ = 5500 ∧ scoreSub ffRec fireQ = 7024 ∧
    scoreAcr ffRec fireQ = 3500 ∧ scoreAcr ffRec fireQ < scoreSub ffRec fireQ ∧
    relInt fireItem = 7024 := by
  have hps : providerSearch fourRecords fireQ = .ok [fireItem] := by
    unfold providerSearch
    rw [if_neg (show ¬(fireQ = []) by decide)]
    simp only [fourRecords, List.filterMap_cons, List.filterMap_nil,
      scoreOf_gimp_fire, scoreOf_lo_fire, scoreOf_ff_fire, scoreOf_term_fire]
    norm_num
    rfl
  refine ⟨hps, ?_, by decide, by decide, by decide, scoreSub_ff, by decide,
    ?_, by decide⟩
  · unfold indelveSearch
    rw [if_neg (show ¬(fireQ = []) by decide)]
    simp only [searchLoop, hps]
    rfl
  · rw [scoreSub_ff]
    decide

end Indelve
